import Mathlib

/-!
Verification of the `contrib_gin_middleware` repository: a shallow embedding
of its three middlewares — CORS origin validation and header synthesis
(`gcors/config.go`), IP allowlisting (`ip_white/option.go`), and the access
logger's label-exclusion check (`logger/logger.go`) — together with theorems
settling the specification's claims about them.

Conventions of the embedding:
* Go string operations map to executable Lean counterparts on the
  character sequence of the string (`strings.HasPrefix` ↦ `Str.hasPre`,
  `strings.HasSuffix` ↦ `Str.hasSuf`, `strings.Contains(s, "/")` ↦
  `Str.containsChar s '/'`, `strings.TrimSpace` ↦ `Str.trimSpace`); on
  valid UTF-8 strings Go's byte-level tests agree with these
  character-level ones.
* A nil Go function value becomes `Option` of a function type.
* `for ... range` loops with early `return` become structural recursion on
  the list, preserving the first-hit short-circuit order of the source.
* The side effects of a request handler (response headers written, abort
  status) are reified into an explicit outcome record; header writes are
  recorded in program order, and a lookup with last-write-wins semantics
  models the response header map.
* External capabilities from the Go standard library that the middleware
  merely calls through (`net.ParseIP`, `net.ParseCIDR`,
  `regexp.MatchString`) are passed in as function parameters, so the
  theorems quantify over every possible behaviour of those calls.
-/

set_option autoImplicit false

namespace Str

/-- Go's `strings.HasPrefix s pre` on the character sequence of `s`. -/
def hasPre (s pre : String) : Bool :=
  pre.data.isPrefixOf s.data

/-- Go's `strings.HasSuffix s suf` on the character sequence of `s`. -/
def hasSuf (s suf : String) : Bool :=
  suf.data.isSuffixOf s.data

/-- Go's `strings.Contains s needle` specialised to a one-character needle. -/
def containsChar (s : String) (ch : Char) : Bool :=
  s.data.contains ch

/-- Go's `strings.TrimSpace`: drop leading and trailing whitespace. -/
def trimSpace (s : String) : String :=
  ⟨((s.data.dropWhile Char.isWhitespace).reverse.dropWhile Char.isWhitespace).reverse⟩

end Str

namespace Gcors

/-- The per-request data `applyCors` reads from `gin.Context`: the request
method, `c.Request.Host`, and the value of `c.Request.Header.Get("Origin")`
(the empty string when the header is absent, exactly as Go's `Header.Get`). -/
structure Request where
  method : String
  host : String
  originHeader : String

/-- The `gCors` policy record from `gcors/config.go`. Header sets are ordered
lists of key/value pairs; `wildcardOrigins` holds the two-part patterns
`(w[0], w[1])` produced at construction. -/
structure GCors where
  allowAllOrigins : Bool
  allowCredentials : Bool
  allowOriginFunc : Option (String → Bool)
  allowOriginWithContextFunc : Option (Request → String → Bool)
  allowOrigins : List String
  normalHeaders : List (String × String)
  preflightHeaders : List (String × String)
  wildcardOrigins : List (String × String)
  optionsResponseStatusCode : Nat

/-- The loop body of `validateWildcardOrigin`: scan the stored patterns in
order and return `true` at the first `w` whose three-way test succeeds. -/
def wildcardLoop (origin : String) : List (String × String) → Bool
  | [] => false
  | w :: rest =>
    if w.1 == "*" && Str.hasSuf origin w.2 then true
    else if w.2 == "*" && Str.hasPre origin w.1 then true
    else if Str.hasPre origin w.1 && Str.hasSuf origin w.2 then true
    else wildcardLoop origin rest

/-- `gCors.validateWildcardOrigin` from `gcors/config.go`. -/
def validateWildcardOrigin (g : GCors) (origin : String) : Bool :=
  wildcardLoop origin g.wildcardOrigins

/-- The exact-match loop of `validateOrigin`: `for _, value := range
gCors.allowOrigins { if value == origin { return true } }`. -/
def exactLoop (origin : String) : List String → Bool
  | [] => false
  | value :: rest => if value == origin then true else exactLoop origin rest

/-- `gCors.validateOrigin` from `gcors/config.go`: allow-all flag, then exact
matches, then wildcard patterns (guarded by non-emptiness of the pattern
list), then the plain predicate if configured. -/
def validateOrigin (g : GCors) (origin : String) : Bool :=
  if g.allowAllOrigins then true
  else if exactLoop origin g.allowOrigins then true
  else if decide (g.wildcardOrigins.length > 0) && validateWildcardOrigin g origin then true
  else
    match g.allowOriginFunc with
    | some f => f origin
    | none => false

/-- `gCors.isOriginValid` from `gcors/config.go`: run `validateOrigin`, and
only when it failed consult the context-aware predicate, if configured. -/
def isOriginValid (g : GCors) (c : Request) (origin : String) : Bool :=
  let valid := validateOrigin g origin
  if !valid then
    match g.allowOriginWithContextFunc with
    | some f => f c origin
    | none => valid
  else valid

/-- The observable effect of one `applyCors` call: the response headers it
wrote, in program order, and the status it aborted the context with
(`none` when the chain continues to downstream handlers). -/
structure CorsOutcome where
  headers : List (String × String)
  abortStatus : Option Nat
  deriving DecidableEq, Repr

/-- `gCors.applyCors` from `gcors/config.go`. The `defer
c.AbortWithStatus(...)` of the preflight branch runs after the trailing
origin echo, so the echo write precedes the abort in the outcome. -/
def applyCors (g : GCors) (c : Request) : CorsOutcome :=
  let origin := c.originHeader
  if origin.length == 0 then
    { headers := [], abortStatus := none }
  else
    let host := c.host
    if origin == "http://" ++ host || origin == "https://" ++ host then
      { headers := [], abortStatus := none }
    else if !(isOriginValid g c origin) then
      { headers := [], abortStatus := some 403 }
    else if c.method == "OPTIONS" then
      { headers := g.preflightHeaders ++
          (if !g.allowAllOrigins then [("Access-Control-Allow-Origin", origin)] else []),
        abortStatus := some g.optionsResponseStatusCode }
    else
      { headers := g.normalHeaders ++
          (if !g.allowAllOrigins then [("Access-Control-Allow-Origin", origin)] else []),
        abortStatus := none }

/-- A downstream handler runs exactly when the middleware did not abort. -/
def downstreamRuns (o : CorsOutcome) : Bool :=
  o.abortStatus.isNone

/-- Last-write-wins lookup into the recorded header writes: the value the
response header map holds for `k` once the handler returns. -/
def getHeader (hs : List (String × String)) (k : String) : Option String :=
  (hs.reverse.find? (fun p => p.1 == k)).map (fun p => p.2)

/-- How many writes in the outcome target the header key `k`. -/
def headerCount (hs : List (String × String)) (k : String) : Nat :=
  (hs.filter (fun p => p.1 == k)).length

/-- The construction-time `Config` fields that `newCors` reads. -/
structure Config where
  allowAllOrigins : Bool
  allowCredentials : Bool
  allowOrigins : List String
  allowOriginFunc : Option (String → Bool)
  allowOriginWithContextFunc : Option (Request → String → Bool)
  optionsResponseStatusCode : Nat

/-- `newCors` from `gcors/config.go`, parameterised over the helper
functions (`normalize`, `generateNormalHeaders`, `generatePreflightHeaders`,
`Config.parseWildcardRules`) whose bodies live outside the available source:
promote `AllowAllOrigins` when some entry of `AllowOrigins` is `"*"`,
default `OptionsResponseStatusCode` to `http.StatusNoContent` (204) when it
is zero, then assemble the policy record. -/
def newCors (normalize : List String → List String)
    (generateNormalHeaders generatePreflightHeaders : Config → List (String × String))
    (parseWildcardRules : Config → List (String × String))
    (config : Config) : GCors :=
  let promotedAllowAll :=
    config.allowOrigins.foldl
      (fun acc origin => if origin == "*" then true else acc)
      config.allowAllOrigins
  let config := { config with allowAllOrigins := promotedAllowAll }
  let defaultedStatus :=
    if config.optionsResponseStatusCode == 0 then 204
    else config.optionsResponseStatusCode
  let config := { config with optionsResponseStatusCode := defaultedStatus }
  { allowOriginFunc := config.allowOriginFunc
    allowOriginWithContextFunc := config.allowOriginWithContextFunc
    allowAllOrigins := config.allowAllOrigins
    allowCredentials := config.allowCredentials
    allowOrigins := normalize config.allowOrigins
    normalHeaders := generateNormalHeaders config
    preflightHeaders := generatePreflightHeaders config
    wildcardOrigins := parseWildcardRules config
    optionsResponseStatusCode := config.optionsResponseStatusCode }

/-- The wildcard-match relation exactly as the specification words it: the
pattern `(prefix, suffix)` matches when the prefix part is `"*"` and the
origin ends with the suffix, or the suffix part is `"*"` and the origin
starts with the prefix, or the origin both starts with the prefix and ends
with the suffix. -/
def wildcardMatch (w : String × String) (origin : String) : Bool :=
  (w.1 == "*" && Str.hasSuf origin w.2) ||
  (w.2 == "*" && Str.hasPre origin w.1) ||
  (Str.hasPre origin w.1 && Str.hasSuf origin w.2)

/-- The five-step acceptance cascade exactly as the specification words it:
allow-all, then exact membership, then some wildcard pattern matching, then
the plain predicate, then the context-aware predicate; reject otherwise.
Each test short-circuits the later ones. -/
def originCascadeSpec (g : GCors) (c : Request) (origin : String) : Bool :=
  if g.allowAllOrigins then true
  else if g.allowOrigins.any (fun value => value == origin) then true
  else if g.wildcardOrigins.any (fun w => wildcardMatch w origin) then true
  else if (match g.allowOriginFunc with
           | some f => f origin
           | none => false) then true
  else
    match g.allowOriginWithContextFunc with
    | some f => f c origin
    | none => false

end Gcors

namespace IpWhite

/-- The `option` record from `ip_white/option.go` (the mutex carries no
observable state). -/
structure Opt where
  whiteList : List String

/-- `WithIpWhite` from `ip_white/option.go`: an option setting the list. -/
def WithIpWhite (ips : List String) : Opt → Opt :=
  fun o => { o with whiteList := ips }

/-- The option-application prologue of `New`: start from the zero-valued
`option` record and apply each functional option in order. -/
def applyOptions (opts : List (Opt → Opt)) : Opt :=
  opts.foldl (fun cfg opt => opt cfg) { whiteList := [] }

/-- One iteration of the `isIPWhite` loop over a whitelist entry, for an
already-parsed client address `ipAddr` (of abstract address type `α`) and
its raw string `ip`. `parseCIDR` stands for `net.ParseCIDR`, returning
`none` on error and otherwise the membership test of the parsed network. -/
def entryMatches {α : Type} (parseCIDR : String → Option (α → Bool))
    (ipAddr : α) (ip : String) (allowedIP : String) : Bool :=
  if Str.containsChar allowedIP '/' then
    match parseCIDR allowedIP with
    | none => false
    | some inNet => inNet ipAddr
  else
    Str.trimSpace allowedIP == ip

/-- The entry loop of `isIPWhite`: first matching entry returns `true`,
a CIDR parse error just continues, exhaustion returns `false`. -/
def whiteLoop {α : Type} (parseCIDR : String → Option (α → Bool))
    (ipAddr : α) (ip : String) : List String → Bool
  | [] => false
  | allowedIP :: rest =>
    if entryMatches parseCIDR ipAddr ip allowedIP then true
    else whiteLoop parseCIDR ipAddr ip rest

/-- `isIPWhite` from `ip_white/option.go`, with `net.ParseIP` and
`net.ParseCIDR` supplied as parameters: fail closed when the client string
does not parse, otherwise scan the whitelist. -/
def isIPWhite {α : Type} (parseIP : String → Option α)
    (parseCIDR : String → Option (α → Bool))
    (ip : String) (whitelist : List String) : Bool :=
  match parseIP ip with
  | none => false
  | some ipAddr => whiteLoop parseCIDR ipAddr ip whitelist

/-- The handler returned by `New` from `ip_white/option.go`: abort with 403
when `isIPWhite` rejects the client IP, otherwise fall through (no abort). -/
def newHandler {α : Type} (parseIP : String → Option α)
    (parseCIDR : String → Option (α → Bool))
    (opts : List (Opt → Opt)) (clientIP : String) : Option Nat :=
  let cfg := applyOptions opts
  if !(isIPWhite parseIP parseCIDR clientIP cfg.whiteList) then some 403
  else none

end IpWhite

namespace Logger

/-- The pattern loop of `checkLabel`: an empty pattern or a pattern whose
compilation fails (`matchString` returns `none`, standing for the error
result of `regexp.MatchString`) returns `true` at once; a successful match
returns `false`; otherwise the scan continues. -/
def checkLabelLoop (matchString : String → String → Option Bool)
    (label : String) : List String → Bool
  | [] => true
  | pattern :: rest =>
    if pattern == "" then true
    else
      match matchString pattern label with
      | none => true
      | some matched =>
        if matched then false
        else checkLabelLoop matchString label rest

/-- `config.checkLabel` from `logger/logger.go`: `true` on an empty pattern
list, otherwise the scan above. -/
def checkLabel (matchString : String → String → Option Bool)
    (label : String) (patterns : List String) : Bool :=
  if patterns.length ≤ 0 then true
  else checkLabelLoop matchString label patterns

end Logger

namespace Samples

/-- A concrete policy for witnesses: one exact origin, one inner wildcard
pattern, no predicates, allow-all off. -/
def rejectPolicy : Gcors.GCors :=
  { allowAllOrigins := false
    allowCredentials := false
    allowOriginFunc := none
    allowOriginWithContextFunc := none
    allowOrigins := ["https://ok.example"]
    normalHeaders := [("Access-Control-Expose-Headers", "X-Total")]
    preflightHeaders := [("Access-Control-Allow-Methods", "GET,POST")]
    wildcardOrigins := [("https://", ".ok.example")]
    optionsResponseStatusCode := 204 }

/-- The same policy with the allow-all flag raised. -/
def allowAllPolicy : Gcors.GCors :=
  { rejectPolicy with allowAllOrigins := true }

/-- A cross-origin request whose origin the sample policy rejects. -/
def evilReq : Gcors.Request :=
  { method := "GET", host := "api.test", originHeader := "https://evil.example" }

/-- An accepted preflight request. -/
def optReq : Gcors.Request :=
  { method := "OPTIONS", host := "api.test", originHeader := "https://ok.example" }

/-- An accepted plain request. -/
def getReq : Gcors.Request :=
  { method := "GET", host := "api.test", originHeader := "https://ok.example" }

/-- A request with no `Origin` header. -/
def noOriginReq : Gcors.Request :=
  { method := "GET", host := "api.test", originHeader := "" }

/-- A same-origin request that still carries an `Origin` header. -/
def sameOriginReq : Gcors.Request :=
  { method := "GET", host := "api.test", originHeader := "http://api.test" }

/-- A construction-time configuration whose origin list holds a literal
`"*"` entry. -/
def starConfig : Gcors.Config :=
  { allowAllOrigins := false
    allowCredentials := false
    allowOrigins := ["https://a.example", "*"]
    allowOriginFunc := none
    allowOriginWithContextFunc := none
    optionsResponseStatusCode := 0 }

end Samples

namespace Gcors

theorem wildcardLoop_eq_any (origin : String) (l : List (String × String)) :
    wildcardLoop origin l = l.any (fun w => wildcardMatch w origin) := by
  induction l with
  | nil => rfl
  | cons w rest ih =>
    simp only [wildcardLoop, wildcardMatch, List.any_cons, ih]
    cases h1 : (w.1 == "*" && Str.hasSuf origin w.2) <;>
      cases h2 : (w.2 == "*" && Str.hasPre origin w.1) <;>
        cases h3 : (Str.hasPre origin w.1 && Str.hasSuf origin w.2) <;>
          simp_all

theorem exactLoop_eq_any (origin : String) (l : List String) :
    exactLoop origin l = l.any (fun value => value == origin) := by
  induction l with
  | nil => rfl
  | cons value rest ih =>
    simp only [exactLoop, List.any_cons, ih]
    by_cases h : (value == origin) = true <;> simp [h]

theorem wildcard_guard_eq_any (g : GCors) (origin : String) :
    (decide (g.wildcardOrigins.length > 0) && validateWildcardOrigin g origin)
      = g.wildcardOrigins.any (fun w => wildcardMatch w origin) := by
  unfold validateWildcardOrigin
  cases h : g.wildcardOrigins with
  | nil => simp [wildcardLoop]
  | cons w rest => simp [wildcardLoop_eq_any]

theorem validateOrigin_eq_or (g : GCors) (origin : String) :
    validateOrigin g origin
      = (g.allowAllOrigins
          || g.allowOrigins.any (fun value => value == origin)
          || g.wildcardOrigins.any (fun w => wildcardMatch w origin)
          || (match g.allowOriginFunc with
              | some f => f origin
              | none => false)) := by
  unfold validateOrigin
  rw [exactLoop_eq_any]
  by_cases h1 : g.allowAllOrigins = true
  · simp [h1]
  · by_cases h2 : g.allowOrigins.any (fun value => value == origin) = true
    · simp [h1, h2]
    · rw [← wildcard_guard_eq_any g origin]
      by_cases h3 :
          (decide (g.wildcardOrigins.length > 0) && validateWildcardOrigin g origin) = true
      · simp [h1, h2, h3]
      · simp [h1, h2, h3]

theorem isOriginValid_eq_cascade_aux (g : GCors) (c : Request) (origin : String) :
    isOriginValid g c origin = originCascadeSpec g c origin := by
  unfold isOriginValid originCascadeSpec
  rw [validateOrigin_eq_or]
  by_cases h1 : g.allowAllOrigins = true
  · simp [h1]
  · by_cases h2 : g.allowOrigins.any (fun value => value == origin) = true
    · simp [h1, h2]
    · by_cases h3 : g.wildcardOrigins.any (fun w => wildcardMatch w origin) = true
      · simp [h1, h2, h3]
      · by_cases h4 :
            (match g.allowOriginFunc with
             | some f => f origin
             | none => false) = true
        · simp [h1, h2, h3, h4]
        · simp [h1, h2, h3, h4]

theorem length_beq_zero_eq_false {s : String} (h : s ≠ "") : (s.length == 0) = false := by
  cases s with
  | mk data =>
    cases data with
    | nil => exact absurd rfl h
    | cons a t => simp [String.length]

theorem append_ne_empty_left (a b : String) (h : a ≠ "") : a ++ b ≠ "" := by
  intro he
  apply h
  have hd := congrArg String.data he
  rw [String.data_append] at hd
  have ha : a.data = [] := (List.append_eq_nil.mp hd).1
  cases a with
  | mk da =>
    cases ha
    rfl

theorem applyCors_reject (g : GCors) (c : Request)
    (h0 : c.originHeader ≠ "")
    (h1 : c.originHeader ≠ "http://" ++ c.host)
    (h2 : c.originHeader ≠ "https://" ++ c.host)
    (hv : isOriginValid g c c.originHeader = false) :
    applyCors g c = { headers := [], abortStatus := some 403 } := by
  simp [applyCors, length_beq_zero_eq_false h0, h1, h2, hv]

theorem applyCors_accept_preflight (g : GCors) (c : Request)
    (h0 : c.originHeader ≠ "")
    (h1 : c.originHeader ≠ "http://" ++ c.host)
    (h2 : c.originHeader ≠ "https://" ++ c.host)
    (hv : isOriginValid g c c.originHeader = true)
    (hm : c.method = "OPTIONS") :
    applyCors g c =
      { headers := g.preflightHeaders ++
          (if !g.allowAllOrigins then
            [("Access-Control-Allow-Origin", c.originHeader)] else []),
        abortStatus := some g.optionsResponseStatusCode } := by
  simp [applyCors, length_beq_zero_eq_false h0, h1, h2, hv, hm]

theorem applyCors_accept_normal (g : GCors) (c : Request)
    (h0 : c.originHeader ≠ "")
    (h1 : c.originHeader ≠ "http://" ++ c.host)
    (h2 : c.originHeader ≠ "https://" ++ c.host)
    (hv : isOriginValid g c c.originHeader = true)
    (hm : c.method ≠ "OPTIONS") :
    applyCors g c =
      { headers := g.normalHeaders ++
          (if !g.allowAllOrigins then
            [("Access-Control-Allow-Origin", c.originHeader)] else []),
        abortStatus := none } := by
  simp [applyCors, length_beq_zero_eq_false h0, h1, h2, hv, hm]

theorem isOriginValid_false_of_conds (g : GCors) (c : Request) (origin : String)
    (hAll : g.allowAllOrigins = false)
    (hExact : ∀ v ∈ g.allowOrigins, (v == origin) = false)
    (hWild : ∀ w ∈ g.wildcardOrigins, wildcardMatch w origin = false)
    (hFunc : ∀ f, g.allowOriginFunc = some f → f origin = false)
    (hCtx : ∀ f, g.allowOriginWithContextFunc = some f → f c origin = false) :
    isOriginValid g c origin = false := by
  rw [isOriginValid_eq_cascade_aux]
  have e2 : g.allowOrigins.any (fun value => value == origin) = false := by
    simp only [List.any_eq_false]
    intro v hv
    simp [hExact v hv]
  have e3 : g.wildcardOrigins.any (fun w => wildcardMatch w origin) = false := by
    simp only [List.any_eq_false]
    intro w hw
    simp [hWild w hw]
  have e4 : (match g.allowOriginFunc with
             | some f => f origin
             | none => false) = false := by
    cases hf : g.allowOriginFunc with
    | none => rfl
    | some f => exact hFunc f hf
  have e5 : (match g.allowOriginWithContextFunc with
             | some f => f c origin
             | none => false) = false := by
    cases hf : g.allowOriginWithContextFunc with
    | none => rfl
    | some f => exact hCtx f hf
  simp [originCascadeSpec, hAll, e2, e3, e4, e5]

end Gcors

/-- Claim C1: for every cross-origin request, origin validation is exactly the
five-step first-match-wins cascade of the specification — allow-all flag,
exact `allowOrigins` membership, wildcard pattern match, plain predicate,
context-aware predicate — rejecting when none succeeds: `isOriginValid`
coincides with the cascade written from the specification's words. -/
theorem c1_validation_cascade_order (g : Gcors.GCors) (c : Gcors.Request)
    (origin : String) :
    Gcors.isOriginValid g c origin = Gcors.originCascadeSpec g c origin :=
  Gcors.isOriginValid_eq_cascade_aux g c origin

/-- Claim C2: a stored wildcard pattern `(w.1, w.2)` matches an origin exactly
under the three prefix/suffix conditions, and `validateWildcardOrigin`
returns `true` precisely when some stored pattern matches — in particular
`false` on the empty pattern list. -/
theorem c2_wildcard_match_semantics (g : Gcors.GCors) (origin : String) :
    Gcors.validateWildcardOrigin g origin
        = g.wildcardOrigins.any (fun w => Gcors.wildcardMatch w origin)
      ∧ (g.wildcardOrigins = [] → Gcors.validateWildcardOrigin g origin = false) := by
  constructor
  · exact Gcors.wildcardLoop_eq_any origin g.wildcardOrigins
  · intro h
    unfold Gcors.validateWildcardOrigin
    rw [h]
    rfl

/-- Witness for C2 at a concrete policy: pattern `("https://", ".example.com")`
accepts `https://api.example.com`, and the empty pattern list rejects. -/
theorem c2_wildcard_match_semantics_witness :
    (Gcors.validateWildcardOrigin
        { allowAllOrigins := false, allowCredentials := false,
          allowOriginFunc := none, allowOriginWithContextFunc := none,
          allowOrigins := [], normalHeaders := [], preflightHeaders := [],
          wildcardOrigins := [("https://", ".example.com")],
          optionsResponseStatusCode := 204 } "https://api.example.com"
      = [("https://", ".example.com")].any
          (fun w => Gcors.wildcardMatch w "https://api.example.com"))
    ∧ Gcors.validateWildcardOrigin
        { allowAllOrigins := false, allowCredentials := false,
          allowOriginFunc := none, allowOriginWithContextFunc := none,
          allowOrigins := [], normalHeaders := [], preflightHeaders := [],
          wildcardOrigins := [],
          optionsResponseStatusCode := 204 } "https://api.example.com" = false := by
  refine ⟨(c2_wildcard_match_semantics _ "https://api.example.com").1, ?_⟩
  exact (c2_wildcard_match_semantics
    { allowAllOrigins := false, allowCredentials := false,
      allowOriginFunc := none, allowOriginWithContextFunc := none,
      allowOrigins := [], normalHeaders := [], preflightHeaders := [],
      wildcardOrigins := [],
      optionsResponseStatusCode := 204 } "https://api.example.com").2 rfl

/-- Claim C3: a cross-origin request that fails every validation step —
allow-all off, no exact match, no wildcard match, each predicate absent or
returning false — is aborted with HTTP 403 before any CORS header is
written, and no downstream handler runs. -/
theorem c3_rejected_origin_aborts_403 (g : Gcors.GCors) (c : Gcors.Request)
    (h0 : c.originHeader ≠ "")
    (h1 : c.originHeader ≠ "http://" ++ c.host)
    (h2 : c.originHeader ≠ "https://" ++ c.host)
    (hAll : g.allowAllOrigins = false)
    (hExact : ∀ v ∈ g.allowOrigins, (v == c.originHeader) = false)
    (hWild : ∀ w ∈ g.wildcardOrigins, Gcors.wildcardMatch w c.originHeader = false)
    (hFunc : ∀ f, g.allowOriginFunc = some f → f c.originHeader = false)
    (hCtx : ∀ f, g.allowOriginWithContextFunc = some f → f c c.originHeader = false) :
    Gcors.applyCors g c = { headers := [], abortStatus := some 403 }
    ∧ Gcors.downstreamRuns (Gcors.applyCors g c) = false := by
  have hv := Gcors.isOriginValid_false_of_conds g c c.originHeader hAll hExact hWild hFunc hCtx
  have ha := Gcors.applyCors_reject g c h0 h1 h2 hv
  exact ⟨ha, by rw [ha]; rfl⟩

/-- Witness for C3: the sample policy rejects `https://evil.example` with a
bare 403 and the chain stops. -/
theorem c3_rejected_origin_aborts_403_witness :
    Gcors.applyCors Samples.rejectPolicy Samples.evilReq
        = { headers := [], abortStatus := some 403 }
    ∧ Gcors.downstreamRuns (Gcors.applyCors Samples.rejectPolicy Samples.evilReq) = false :=
  c3_rejected_origin_aborts_403 Samples.rejectPolicy Samples.evilReq
    (by decide) (by decide) (by decide) (by decide) (by decide) (by decide)
    (fun f hf => Option.noConfusion hf) (fun f hf => Option.noConfusion hf)

/-- Claim C6: a request with no `Origin` header, or whose origin equals
`http://host` or `https://host` for its own host, passes through with no
header written and no abort, for every policy — the validation logic is
never consulted. -/
theorem c6_non_cors_passthrough (g : Gcors.GCors) (c : Gcors.Request)
    (h : c.originHeader = ""
      ∨ c.originHeader = "http://" ++ c.host
      ∨ c.originHeader = "https://" ++ c.host) :
    Gcors.applyCors g c = { headers := [], abortStatus := none }
    ∧ Gcors.downstreamRuns (Gcors.applyCors g c) = true := by
  have hmain : Gcors.applyCors g c = { headers := [], abortStatus := none } := by
    rcases h with h | h | h
    · simp [Gcors.applyCors, h]
    · have hne : c.originHeader ≠ "" := by
        rw [h]
        exact Gcors.append_ne_empty_left _ _ (by decide)
      simp [Gcors.applyCors, Gcors.length_beq_zero_eq_false hne, h]
    · have hne : c.originHeader ≠ "" := by
        rw [h]
        exact Gcors.append_ne_empty_left _ _ (by decide)
      simp [Gcors.applyCors, Gcors.length_beq_zero_eq_false hne, h]
  exact ⟨hmain, by rw [hmain]; rfl⟩

/-- Witness for C6: the header-less request and the same-origin request pass
through the sample policy untouched. -/
theorem c6_non_cors_passthrough_witness :
    Gcors.applyCors Samples.rejectPolicy Samples.noOriginReq
        = { headers := [], abortStatus := none }
    ∧ Gcors.applyCors Samples.rejectPolicy Samples.sameOriginReq
        = { headers := [], abortStatus := none } :=
  ⟨(c6_non_cors_passthrough Samples.rejectPolicy Samples.noOriginReq
      (Or.inl (by decide))).1,
   (c6_non_cors_passthrough Samples.rejectPolicy Samples.sameOriginReq
      (Or.inr (Or.inl (by decide)))).1⟩

namespace Gcors

theorem getHeader_append_last (hs : List (String × String)) (k v : String) :
    getHeader (hs ++ [(k, v)]) k = some v := by
  unfold getHeader
  rw [List.reverse_append]
  simp [List.find?]

theorem headerCount_append_last (hs : List (String × String)) (k v : String) :
    headerCount (hs ++ [(k, v)]) k = headerCount hs k + 1 := by
  unfold headerCount
  simp [List.filter_append]

theorem promoteFold_from_true (l : List String) :
    l.foldl (fun acc origin => if origin == "*" then true else acc) true = true := by
  induction l with
  | nil => rfl
  | cons a t ih =>
    simp only [List.foldl_cons, ite_self]
    exact ih

theorem promoteFold_of_mem (l : List String) (h : "*" ∈ l) (b : Bool) :
    l.foldl (fun acc origin => if origin == "*" then true else acc) b = true := by
  revert h
  induction l generalizing b with
  | nil =>
    intro h
    exact absurd h (List.not_mem_nil _)
  | cons a t ih =>
    intro h
    rcases List.mem_cons.mp h with h1 | h2
    · subst h1
      simp only [List.foldl_cons, beq_self_eq_true, ite_true]
      exact promoteFold_from_true t
    · simp only [List.foldl_cons]
      exact ih _ h2

end Gcors

/-- Claim C4: for an accepted cross-origin request, when `allowAllOrigins` is
false both the preflight and the normal branch append exactly one
`Access-Control-Allow-Origin` write carrying the request's origin, so the
response map holds the exact echo; when `allowAllOrigins` is true,
`applyCors` adds nothing beyond the precomputed branch header set, so it
never writes the echoed origin itself. -/
theorem c4_origin_echo_exactly_once (g : Gcors.GCors) (c : Gcors.Request)
    (h0 : c.originHeader ≠ "")
    (h1 : c.originHeader ≠ "http://" ++ c.host)
    (h2 : c.originHeader ≠ "https://" ++ c.host)
    (hv : Gcors.isOriginValid g c c.originHeader = true) :
    (g.allowAllOrigins = false →
      (Gcors.applyCors g c).headers
          = (if c.method == "OPTIONS" then g.preflightHeaders else g.normalHeaders)
              ++ [("Access-Control-Allow-Origin", c.originHeader)]
      ∧ Gcors.getHeader (Gcors.applyCors g c).headers "Access-Control-Allow-Origin"
          = some c.originHeader
      ∧ Gcors.headerCount (Gcors.applyCors g c).headers "Access-Control-Allow-Origin"
          = Gcors.headerCount
              (if c.method == "OPTIONS" then g.preflightHeaders else g.normalHeaders)
              "Access-Control-Allow-Origin" + 1)
    ∧ (g.allowAllOrigins = true →
      (Gcors.applyCors g c).headers
          = (if c.method == "OPTIONS" then g.preflightHeaders else g.normalHeaders)) := by
  cases hmb : (c.method == "OPTIONS") with
  | true =>
    have hm : c.method = "OPTIONS" := eq_of_beq hmb
    have ha := Gcors.applyCors_accept_preflight g c h0 h1 h2 hv hm
    constructor
    · intro hall
      rw [ha]
      simp [hall, Gcors.getHeader_append_last, Gcors.headerCount_append_last]
    · intro hall
      rw [ha]
      simp [hall]
  | false =>
    have hm : c.method ≠ "OPTIONS" := by
      intro he
      rw [he] at hmb
      simp at hmb
    have ha := Gcors.applyCors_accept_normal g c h0 h1 h2 hv hm
    constructor
    · intro hall
      rw [ha]
      simp [hall, Gcors.getHeader_append_last, Gcors.headerCount_append_last]
    · intro hall
      rw [ha]
      simp [hall]

/-- Witness for C4: the sample policy echoes `https://ok.example` once onto
the normal-branch headers; the allow-all policy adds nothing to them. -/
theorem c4_origin_echo_exactly_once_witness :
    (Gcors.applyCors Samples.rejectPolicy Samples.getReq).headers
        = (if Samples.getReq.method == "OPTIONS" then Samples.rejectPolicy.preflightHeaders
           else Samples.rejectPolicy.normalHeaders)
            ++ [("Access-Control-Allow-Origin", Samples.getReq.originHeader)]
    ∧ (Gcors.applyCors Samples.allowAllPolicy Samples.getReq).headers
        = (if Samples.getReq.method == "OPTIONS" then Samples.allowAllPolicy.preflightHeaders
           else Samples.allowAllPolicy.normalHeaders) :=
  ⟨((c4_origin_echo_exactly_once Samples.rejectPolicy Samples.getReq
      (by decide) (by decide) (by decide) (by decide)).1 rfl).1,
   (c4_origin_echo_exactly_once Samples.allowAllPolicy Samples.getReq
      (by decide) (by decide) (by decide) (by decide)).2 rfl⟩

/-- Claim C5: an accepted preflight request receives every precomputed
preflight header, terminates with `optionsResponseStatusCode` and no
downstream handler, the origin echo still lands in the response map before
termination, and `newCors` defaults a zero configured status code to 204. -/
theorem c5_preflight_termination (g : Gcors.GCors) (c : Gcors.Request)
    (h0 : c.originHeader ≠ "")
    (h1 : c.originHeader ≠ "http://" ++ c.host)
    (h2 : c.originHeader ≠ "https://" ++ c.host)
    (hv : Gcors.isOriginValid g c c.originHeader = true)
    (hm : c.method = "OPTIONS") :
    (∀ hdr ∈ g.preflightHeaders, hdr ∈ (Gcors.applyCors g c).headers)
    ∧ (Gcors.applyCors g c).abortStatus = some g.optionsResponseStatusCode
    ∧ Gcors.downstreamRuns (Gcors.applyCors g c) = false
    ∧ (g.allowAllOrigins = false →
        Gcors.getHeader (Gcors.applyCors g c).headers "Access-Control-Allow-Origin"
          = some c.originHeader)
    ∧ (∀ (nz : List String → List String)
        (gn gp pw : Gcors.Config → List (String × String)) (cfg : Gcors.Config),
        cfg.optionsResponseStatusCode = 0 →
        (Gcors.newCors nz gn gp pw cfg).optionsResponseStatusCode = 204) := by
  have ha := Gcors.applyCors_accept_preflight g c h0 h1 h2 hv hm
  refine ⟨?_, ?_, ?_, ?_, ?_⟩
  · intro hdr hh
    rw [ha]
    exact List.mem_append_left _ hh
  · rw [ha]
  · rw [ha]
    rfl
  · intro hall
    rw [ha]
    simp [hall, Gcors.getHeader_append_last]
  · intro nz gn gp pw cfg hz
    simp [Gcors.newCors, hz]

/-- Witness for C5: the accepted preflight against the sample policy carries
the precomputed allow-methods header, aborts with 204, skips downstream,
keeps the echo, and a zero-status configuration defaults to 204. -/
theorem c5_preflight_termination_witness :
    ("Access-Control-Allow-Methods", "GET,POST")
        ∈ (Gcors.applyCors Samples.rejectPolicy Samples.optReq).headers
    ∧ (Gcors.applyCors Samples.rejectPolicy Samples.optReq).abortStatus
        = some Samples.rejectPolicy.optionsResponseStatusCode
    ∧ Gcors.downstreamRuns (Gcors.applyCors Samples.rejectPolicy Samples.optReq) = false
    ∧ Gcors.getHeader (Gcors.applyCors Samples.rejectPolicy Samples.optReq).headers
        "Access-Control-Allow-Origin" = some Samples.optReq.originHeader
    ∧ (Gcors.newCors id (fun _ => []) (fun _ => []) (fun _ => [])
        Samples.starConfig).optionsResponseStatusCode = 204 :=
  let h := c5_preflight_termination Samples.rejectPolicy Samples.optReq
    (by decide) (by decide) (by decide) (by decide) rfl
  ⟨h.1 _ (by decide), h.2.1, h.2.2.1, h.2.2.2.1 rfl,
   h.2.2.2.2 id (fun _ => []) (fun _ => []) (fun _ => []) Samples.starConfig rfl⟩

/-- Claim C7: a literal `"*"` entry in the configured origin list makes
`newCors` promote the policy to `allowAllOrigins = true`, and the resulting
policy is identical to the one built with the explicit allow-all flag. -/
theorem c7_star_entry_promotes_allow_all
    (nz : List String → List String)
    (gn gp pw : Gcors.Config → List (String × String))
    (cfg : Gcors.Config) (h : "*" ∈ cfg.allowOrigins) :
    (Gcors.newCors nz gn gp pw cfg).allowAllOrigins = true
    ∧ Gcors.newCors nz gn gp pw cfg
        = Gcors.newCors nz gn gp pw { cfg with allowAllOrigins := true } := by
  have e1 : cfg.allowOrigins.foldl
      (fun acc origin => if origin == "*" then true else acc) cfg.allowAllOrigins = true :=
    Gcors.promoteFold_of_mem cfg.allowOrigins h cfg.allowAllOrigins
  have e2 : cfg.allowOrigins.foldl
      (fun acc origin => if origin == "*" then true else acc) true = true :=
    Gcors.promoteFold_from_true cfg.allowOrigins
  constructor
  · exact e1
  · show Gcors.GCors.mk _ _ _ _ _ _ _ _ _ = Gcors.GCors.mk _ _ _ _ _ _ _ _ _
    rw [show ({ cfg with allowAllOrigins := true } : Gcors.Config).allowOrigins
          = cfg.allowOrigins from rfl] at e2 ⊢
    simp only [Gcors.newCors, e1, e2]

/-- Witness for C7 at the sample configuration holding a `"*"` entry. -/
theorem c7_star_entry_promotes_allow_all_witness :
    (Gcors.newCors id (fun _ => []) (fun _ => []) (fun _ => [])
        Samples.starConfig).allowAllOrigins = true
    ∧ Gcors.newCors id (fun _ => []) (fun _ => []) (fun _ => []) Samples.starConfig
        = Gcors.newCors id (fun _ => []) (fun _ => []) (fun _ => [])
            { Samples.starConfig with allowAllOrigins := true } :=
  c7_star_entry_promotes_allow_all id (fun _ => []) (fun _ => []) (fun _ => [])
    Samples.starConfig (by decide)

namespace IpWhite

theorem whiteLoop_skip {α : Type} (parseCIDR : String → Option (α → Bool))
    (a : α) (ip bad : String)
    (hbad : entryMatches parseCIDR a ip bad = false)
    (pre post : List String) :
    whiteLoop parseCIDR a ip (pre ++ bad :: post)
      = whiteLoop parseCIDR a ip (pre ++ post) := by
  induction pre with
  | nil => simp [whiteLoop, hbad]
  | cons q t ih =>
    simp only [List.cons_append, whiteLoop, List.append_eq]
    rw [ih]

end IpWhite

namespace Logger

theorem checkLabelLoop_skip (ms : String → String → Option Bool) (label : String)
    (pre : List String)
    (hpre : ∀ q ∈ pre, q ≠ "" ∧ ms q label = some false) (l : List String) :
    checkLabelLoop ms label (pre ++ l) = checkLabelLoop ms label l := by
  revert hpre
  induction pre with
  | nil =>
    intro _
    rfl
  | cons q t ih =>
    intro hpre
    have hq := hpre q (List.mem_cons_self q t)
    have ht := ih (fun r hr => hpre r (List.mem_cons_of_mem q hr))
    simp only [List.cons_append, checkLabelLoop]
    simp [hq.1, hq.2, ht]

end Logger

/-- Claim C8: when the client address string does not parse
(`net.ParseIP` returns nil), `isIPWhite` is false whatever the whitelist,
and the handler built by `New` aborts the request with 403. -/
theorem c8_unparseable_ip_fails_closed {α : Type} (parseIP : String → Option α)
    (parseCIDR : String → Option (α → Bool)) (ip : String)
    (whitelist : List String) (opts : List (IpWhite.Opt → IpWhite.Opt))
    (h : parseIP ip = none) :
    IpWhite.isIPWhite parseIP parseCIDR ip whitelist = false
    ∧ IpWhite.newHandler parseIP parseCIDR opts ip = some 403 := by
  have h1 : ∀ wl, IpWhite.isIPWhite parseIP parseCIDR ip wl = false := by
    intro wl
    unfold IpWhite.isIPWhite
    rw [h]
  refine ⟨h1 whitelist, ?_⟩
  unfold IpWhite.newHandler
  simp [h1]

/-- Witness for C8: a parser that rejects `not-an-ip` makes the allowlist
middleware return false and abort with 403. -/
theorem c8_unparseable_ip_fails_closed_witness :
    IpWhite.isIPWhite (fun _ => (none : Option Nat)) (fun _ => none)
        "not-an-ip" ["10.0.0.1"] = false
    ∧ IpWhite.newHandler (fun _ => (none : Option Nat)) (fun _ => none)
        [IpWhite.WithIpWhite ["10.0.0.1"]] "not-an-ip" = some 403 :=
  c8_unparseable_ip_fails_closed (fun _ => (none : Option Nat)) (fun _ => none)
    "not-an-ip" ["10.0.0.1"] [IpWhite.WithIpWhite ["10.0.0.1"]] rfl

/-- Claim C9: a whitelist entry containing `/` whose CIDR parse fails matches
no client address and is silently skipped — the scan's outcome over any
whitelist equals the outcome with the malformed entry removed. -/
theorem c9_malformed_cidr_entry_skipped {α : Type} (parseIP : String → Option α)
    (parseCIDR : String → Option (α → Bool)) (ip bad : String)
    (pre post : List String)
    (hs : Str.containsChar bad '/' = true)
    (he : parseCIDR bad = none) :
    (∀ ipAddr : α, IpWhite.entryMatches parseCIDR ipAddr ip bad = false)
    ∧ IpWhite.isIPWhite parseIP parseCIDR ip (pre ++ bad :: post)
        = IpWhite.isIPWhite parseIP parseCIDR ip (pre ++ post) := by
  have hentry : ∀ ipAddr : α, IpWhite.entryMatches parseCIDR ipAddr ip bad = false := by
    intro a
    unfold IpWhite.entryMatches
    simp [hs, he]
  refine ⟨hentry, ?_⟩
  unfold IpWhite.isIPWhite
  cases hp : parseIP ip with
  | none => rfl
  | some a => exact IpWhite.whiteLoop_skip parseCIDR a ip bad (hentry a) pre post

/-- Witness for C9: dropping the malformed entry `10.0.0.0/abc` does not
change the scan's verdict on a concrete whitelist. -/
theorem c9_malformed_cidr_entry_skipped_witness :
    IpWhite.isIPWhite (fun _ => some (0 : Nat)) (fun _ => none) "1.2.3.4"
        (["9.9.9.9"] ++ "10.0.0.0/abc" :: ["1.2.3.4"])
      = IpWhite.isIPWhite (fun _ => some (0 : Nat)) (fun _ => none) "1.2.3.4"
        (["9.9.9.9"] ++ ["1.2.3.4"]) :=
  (c9_malformed_cidr_entry_skipped (fun _ => some (0 : Nat)) (fun _ => none)
    "1.2.3.4" "10.0.0.0/abc" ["9.9.9.9"] ["1.2.3.4"] (by decide) rfl).2

/-- Claim C10: `checkLabel` is true on an empty pattern list; scanning in
order, it yields true at the first empty or non-compiling pattern, false at
the first matching pattern, and true when the list is exhausted without a
match — a bad exclusion pattern can never suppress logging. -/
theorem c10_checkLabel_failsafe (ms : String → String → Option Bool) (label : String) :
    Logger.checkLabel ms label [] = true
    ∧ (∀ pre p rest, (∀ q ∈ pre, q ≠ "" ∧ ms q label = some false) →
        ((p = "" ∨ ms p label = none) →
          Logger.checkLabel ms label (pre ++ p :: rest) = true)
        ∧ (p ≠ "" → ms p label = some true →
          Logger.checkLabel ms label (pre ++ p :: rest) = false))
    ∧ (∀ patterns, (∀ q ∈ patterns, q ≠ "" ∧ ms q label = some false) →
        Logger.checkLabel ms label patterns = true) := by
  refine ⟨rfl, ?_, ?_⟩
  · intro pre p rest hpre
    have hck : Logger.checkLabel ms label (pre ++ p :: rest)
        = Logger.checkLabelLoop ms label (p :: rest) := by
      unfold Logger.checkLabel
      rw [if_neg (by simp)]
      exact Logger.checkLabelLoop_skip ms label pre hpre (p :: rest)
    constructor
    · intro hor
      rw [hck]
      rcases hor with hp | hn
      · simp [Logger.checkLabelLoop, hp]
      · by_cases hpe : p = ""
        · simp [Logger.checkLabelLoop, hpe]
        · simp [Logger.checkLabelLoop, hpe, hn]
    · intro hpe hm
      rw [hck]
      simp [Logger.checkLabelLoop, hpe, hm]
  · intro patterns hps
    cases patterns with
    | nil => rfl
    | cons q t =>
      unfold Logger.checkLabel
      rw [if_neg (by simp)]
      have := Logger.checkLabelLoop_skip ms label (q :: t) hps []
      rw [List.append_nil] at this
      rw [this]
      rfl

/-- Witness for C10 with the matcher that fails to compile exactly the
pattern `bad` and matches exactly the label itself. -/
theorem c10_checkLabel_failsafe_witness :
    Logger.checkLabel (fun p l => if p == "bad" then none else some (p == l)) "lbl" [] = true
    ∧ Logger.checkLabel (fun p l => if p == "bad" then none else some (p == l)) "lbl"
        (["x"] ++ "" :: ["y"]) = true
    ∧ Logger.checkLabel (fun p l => if p == "bad" then none else some (p == l)) "lbl"
        (["x"] ++ "bad" :: ["y"]) = true
    ∧ Logger.checkLabel (fun p l => if p == "bad" then none else some (p == l)) "lbl"
        (["x"] ++ "lbl" :: ["y"]) = false
    ∧ Logger.checkLabel (fun p l => if p == "bad" then none else some (p == l)) "lbl"
        ["x", "y"] = true :=
  let h := c10_checkLabel_failsafe (fun p l => if p == "bad" then none else some (p == l)) "lbl"
  ⟨h.1,
   (h.2.1 ["x"] "" ["y"] (by decide)).1 (Or.inl rfl),
   (h.2.1 ["x"] "bad" ["y"] (by decide)).1 (Or.inr (by decide)),
   (h.2.1 ["x"] "lbl" ["y"] (by decide)).2 (by decide) (by decide),
   h.2.2 ["x", "y"] (by decide)⟩
